import Mathlib

/-!
Verification of the optimization engine of the neurophysics-lab backend.

The definitions below are a shallow embedding of the Python sources under
`backend/services/optimization_engine/` and `backend/models/pydantic_models.py`:

* `evalInner` / `evaluateExpression` embed `OptimizationSolver._evaluate_expression`
  (optimization_solver.py, lines 376-391): the Python code evaluates the string
  with `eval(expression, {"__builtins__": {}}, safe_dict)` where `safe_dict`
  holds `sin, cos, tan, exp, log, sqrt, pi, e` and is then updated with the
  parameter binding; any exception is swallowed and `0.0` is returned.
  The AST `Expr` covers the arithmetic fragment of Python expressions that the
  grammar of the engine uses (numbers, names, unary function calls, negation,
  the four binary arithmetic operators).  Name resolution tries the parameter
  binding first (because `dict.update` lets parameters shadow the safe names)
  and then the safe environment; an unresolved name, a call to a non-function,
  or a division by zero raises in Python, which the embedding models as `none`.
* `evaluateObjectives`, `evaluateConstraints`, `vectorToParameters`,
  `parametersToVector` embed the corresponding private methods of
  `OptimizationSolver`.
* `dominates` / `filterNonDominated` embed
  `MultiObjectiveOptimizer._filter_non_dominated_solutions`.
* `determineWeights` and the four preference models embed
  `MultiObjectiveOptimizer._determine_weights` and its helpers.
* `createSurrogateModel` and the three `update*` functions embed
  `SurrogateModelManager`; the external scikit-learn fitting routine and the
  shuffled `train_test_split` permutation are taken as explicit function
  parameters, while split sizes, control flow and metric formulas come from
  the source.
* `validOptimizationParameter` embeds the pydantic model
  `OptimizationParameter` (pydantic_models.py, lines 149-154).
-/

namespace NeuroOpt

/-- Arithmetic expression AST: the fragment of Python expressions the engine
evaluates (numeric literal, identifier, unary function call, unary minus and
the four binary arithmetic operators). -/
inductive Expr where
  | num  : ℝ → Expr
  | name : String → Expr
  | call : String → Expr → Expr
  | neg  : Expr → Expr
  | add  : Expr → Expr → Expr
  | sub  : Expr → Expr → Expr
  | mul  : Expr → Expr → Expr
  | div  : Expr → Expr → Expr

/-- A parameter binding: the `parameters` dict passed to
`_evaluate_expression` (name → float). -/
def Binding := List (String × ℝ)

/-- Dictionary lookup in a binding (first occurrence wins, as in a dict built
by successive insertion). -/
def lookupB : List (String × ℝ) → String → Option ℝ
  | [], _ => none
  | (k, v) :: t, s => if k = s then some v else lookupB t s

/-- The function entries of `safe_dict` in
`OptimizationSolver._evaluate_expression`:
`sin, cos, tan, exp, log, sqrt` (numpy functions). -/
noncomputable def safeFuns (s : String) : Option (ℝ → ℝ) :=
  if s = "sin" then some Real.sin
  else if s = "cos" then some Real.cos
  else if s = "tan" then some Real.tan
  else if s = "exp" then some Real.exp
  else if s = "log" then some Real.log
  else if s = "sqrt" then some Real.sqrt
  else none

/-- The constant entries of `safe_dict`: `pi` and `e`. -/
noncomputable def safeConsts (s : String) : Option ℝ :=
  if s = "pi" then some Real.pi
  else if s = "e" then some (Real.exp 1)
  else none

/-- Names of the function entries of the safe environment. -/
def safeFunNames : List String := ["sin", "cos", "tan", "exp", "log", "sqrt"]

/-- Names of the constant entries of the safe environment. -/
def safeConstNames : List String := ["pi", "e"]

/-- Inner evaluation of an expression inside the Python `eval` call: `some v`
models a successful evaluation, `none` models a raised exception (unresolved
name, call of a non-callable, division by zero).  Parameters shadow the safe
environment because `safe_dict.update(parameters)` overwrites entries. -/
noncomputable def evalInner : Expr → Binding → Option ℝ
  | .num q, _ => some q
  | .name s, b =>
      match lookupB b s with
      | some v => some v
      | none => safeConsts s
  | .call f a, b =>
      match evalInner a b with
      | none => none
      | some v =>
          if (lookupB b f).isSome then none
          else
            match safeFuns f with
            | some g => some (g v)
            | none => none
  | .neg a, b => (evalInner a b).map (fun v => -v)
  | .add a c, b =>
      match evalInner a b, evalInner c b with
      | some x, some y => some (x + y)
      | _, _ => none
  | .sub a c, b =>
      match evalInner a b, evalInner c b with
      | some x, some y => some (x - y)
      | _, _ => none
  | .mul a c, b =>
      match evalInner a b, evalInner c b with
      | some x, some y => some (x * y)
      | _, _ => none
  | .div a c, b =>
      match evalInner a b, evalInner c b with
      | some x, some y => if y = 0 then none else some (x / y)
      | _, _ => none

/-- `OptimizationSolver._evaluate_expression`: evaluate, and on any exception
return `0.0` (the bare `except: return 0.0` of the source). -/
noncomputable def evaluateExpression (e : Expr) (b : Binding) : ℝ :=
  (evalInner e b).getD 0

/-- An expression uses a name that resolves neither in the binding nor in the
safe environment (in value position against binding ∪ constants, in call
position against binding ∪ functions). -/
def usesUnknownName (b : Binding) : Expr → Bool
  | .num _ => false
  | .name s => !(lookupB b s).isSome && !(decide (s ∈ safeConstNames))
  | .call f a =>
      (!(lookupB b f).isSome && !(decide (f ∈ safeFunNames))) || usesUnknownName b a
  | .neg a => usesUnknownName b a
  | .add a c => usesUnknownName b a || usesUnknownName b c
  | .sub a c => usesUnknownName b a || usesUnknownName b c
  | .mul a c => usesUnknownName b a || usesUnknownName b c
  | .div a c => usesUnknownName b a || usesUnknownName b c

/-- The allow-list the specification names for user expressions
(sin, cos, tan, log, exp, sqrt, abs, power).  This definition follows the
words of the specification, for comparison with the source environment. -/
def specAllowList : List String :=
  ["sin", "cos", "tan", "log", "exp", "sqrt", "abs", "power"]

/-- A parameter configuration dict as the solver receives it:
optional `value` and optional `bounds` entries. -/
structure ParamConfig where
  value : Option ℝ := none
  boundsLo : Option ℝ := none
  boundsHi : Option ℝ := none

/-- `OptimizationSolver._vector_to_parameters`: pair the parameter names with
the components of the vector; past the end of the vector, fall back to the
parameter's stored `value` (default `0.0`). -/
def vectorToParameters (vector : List ℝ) (parameters : List (String × ParamConfig)) :
    List (String × ℝ) :=
  parameters.enum.map (fun ic =>
    (ic.2.1, if ic.1 < vector.length then vector.getD ic.1 0 else ic.2.2.value.getD 0))

/-- `OptimizationSolver._parameters_to_vector`: each parameter contributes its
`value` entry, or the default `0.5` when the entry is missing. -/
def parametersToVector (parameters : List (String × ParamConfig)) : List ℝ :=
  parameters.map (fun pc => pc.2.value.getD 0.5)

/-- An objective function dict (`objective['function']`): a `type` entry
(default `'analytical'`) and an `expression` entry (default `'0'`). -/
structure ObjFunction where
  ftype : String := "analytical"
  expression : Expr := Expr.num 0

/-- An objective dict: `type` (default `'minimize'`), `function`, `weight`
(default `1.0`). -/
structure Objective where
  otype : String := "minimize"
  function : ObjFunction
  weight : ℝ := 1

/-- `OptimizationSolver._evaluate_objective_function`: dispatch on the
function type; the `'surrogate'` branch of the source always falls through to
`0.0` (its body is `pass` followed by `return 0.0`), and `'simulation'`
(`_run_simulation`) returns `sum(parameters.values()) if parameters else 0.0`. -/
noncomputable def evaluateObjectiveFunction (f : ObjFunction) (params : Binding) : ℝ :=
  if f.ftype = "analytical" then evaluateExpression f.expression params
  else if f.ftype = "surrogate" then 0
  else if f.ftype = "simulation" then
    if params.isEmpty then 0 else (params.map Prod.snd).sum
  else 0

/-- A constraint dict as the solver reads it: `type`, `expression`
(default `'0'`), `bound`. -/
structure Constraint where
  ctype : String
  expression : Expr := Expr.num 0
  bound : ℝ

/-- `OptimizationSolver._evaluate_constraints`: quadratic penalty with the
fixed local weight `penalty_weight = 1e6`; an inequality contributes only when
its value exceeds the bound, an equality always contributes, any other type
contributes nothing. -/
noncomputable def evaluateConstraints (constraints : List (String × Constraint))
    (params : Binding) : ℝ :=
  (constraints.map (fun nc =>
    let value := evaluateExpression nc.2.expression params
    if nc.2.ctype = "inequality" ∧ value > nc.2.bound then
      1000000 * (value - nc.2.bound) ^ 2
    else if nc.2.ctype = "equality" then
      1000000 * (value - nc.2.bound) ^ 2
    else 0)).sum

/-- `OptimizationSolver._evaluate_objectives`: the objective closure handed to
every solving method.  Note the source calls
`self._vector_to_parameters(x, {})` with an empty parameters dict. -/
noncomputable def evaluateObjectives (x : List ℝ) (objectives : List Objective)
    (constraints : List (String × Constraint)) : ℝ :=
  let params := vectorToParameters x []
  (objectives.map (fun o =>
    let v := evaluateObjectiveFunction o.function params
    if o.otype = "minimize" then o.weight * v else -(o.weight * v))).sum
  + evaluateConstraints constraints params

/-- The pydantic model `OptimizationParameter` of
`backend/models/pydantic_models.py`: name, initial value, bounds list
(`min_items=2, max_items=2`), optional unit. -/
structure OptimizationParameter where
  name : String
  initialValue : ℝ
  boundsList : List ℝ
  unit : Option String := none

/-- Validation of `OptimizationParameter`: pydantic enforces only the declared
field constraints, i.e. that `bounds` has exactly two items.  No validator
relates `initial_value` to the bounds. -/
def validOptimizationParameter (p : OptimizationParameter) : Bool :=
  p.boundsList.length == 2

/-- Dominance check of `_filter_non_dominated_solutions`: `other` dominates
`obj` iff it is no worse in every component and strictly better in at least
one, indices ranging over `len(obj)` as in the source. -/
def dominates (other obj : List ℚ) : Bool :=
  (List.range obj.length).all (fun k => decide (other.getD k 0 ≤ obj.getD k 0)) &&
  (List.range obj.length).any (fun k => decide (other.getD k 0 < obj.getD k 0))

/-- `MultiObjectiveOptimizer._filter_non_dominated_solutions`: keep the
(solution, objective-vector) pairs whose objective vector is dominated by no
pair at a different index; empty input short-circuits as in the source. -/
def filterNonDominated (solutions objectives : List (List ℚ)) :
    List (List ℚ) × List (List ℚ) :=
  if solutions.isEmpty then ([], [])
  else
    let pairs := solutions.zip objectives
    let kept := pairs.enum.filter (fun ip =>
      !(pairs.enum.any (fun jq => decide (jq.1 ≠ ip.1) && dominates jq.2.2 ip.2.2)))
    (kept.map (fun ip => ip.2.1), kept.map (fun ip => ip.2.2))

/-- An objective as the weight-determination helpers see it (only its count
matters to them). -/
structure MOObjective where
  objName : String := ""

/-- The `preferences` dict fields read by weight determination. -/
structure Preferences where
  weightMethod : Option String := none
  userWeights : List ℚ := []

/-- `MultiObjectiveOptimizer._equal_weights`: `[1.0/n] * n`; with no
objectives the Python division raises, modeled as `none`. -/
def equalWeights (objectives : List MOObjective) : Option (List ℚ) :=
  if objectives.length = 0 then none
  else some (List.replicate objectives.length (1 / (objectives.length : ℚ)))

/-- `MultiObjectiveOptimizer._user_defined_weights`: normalize the supplied
weights when their count matches the objectives (a zero total raises, modeled
as `none`), otherwise fall back to equal weights. -/
def userDefinedWeights (objectives : List MOObjective) (prefs : Preferences) :
    Option (List ℚ) :=
  if prefs.userWeights.length = objectives.length then
    let total := prefs.userWeights.sum
    if total = 0 then none
    else some (prefs.userWeights.map (fun w => w / total))
  else equalWeights objectives

/-- `MultiObjectiveOptimizer._entropy_based_weights`: the source returns
equal weights. -/
def entropyBasedWeights (objectives : List MOObjective) (_prefs : Preferences) :
    Option (List ℚ) :=
  equalWeights objectives

/-- `MultiObjectiveOptimizer._ahp_weights`: the source returns equal
weights. -/
def ahpWeights (objectives : List MOObjective) (_prefs : Preferences) :
    Option (List ℚ) :=
  equalWeights objectives

/-- Keys of the `preference_models` dispatch table. -/
def weightMethodNames : List String :=
  ["equal_weights", "user_defined", "entropy_weights", "ahp_weights"]

/-- `MultiObjectiveOptimizer._determine_weights`: read the method name
(default `'equal_weights'`), substitute `'equal_weights'` when it is not a
key of the table, dispatch. -/
def determineWeights (objectives : List MOObjective) (prefs : Preferences) :
    Option (List ℚ) :=
  let m := prefs.weightMethod.getD "equal_weights"
  let m := if m ∈ weightMethodNames then m else "equal_weights"
  if m = "equal_weights" then equalWeights objectives
  else if m = "user_defined" then userDefinedWeights objectives prefs
  else if m = "entropy_weights" then entropyBasedWeights objectives prefs
  else ahpWeights objectives prefs

/-- A training or test sample: input vector paired with its output. -/
abbrev Sample := List ℝ × ℝ

/-- Coefficient of determination R², as scikit-learn computes it:
`1 - Σ(y - ŷ)² / Σ(y - mean y)²`. -/
noncomputable def r2Score (yTrue yPred : List ℝ) : ℝ :=
  1 - ((yTrue.zip yPred).map (fun p => (p.1 - p.2) ^ 2)).sum /
      (yTrue.map (fun v => (v - yTrue.sum / yTrue.length) ^ 2)).sum

/-- Root mean squared error, `sqrt(mean_squared_error)` of the source. -/
noncomputable def rmseScore (yTrue yPred : List ℝ) : ℝ :=
  Real.sqrt (((yTrue.zip yPred).map (fun p => (p.1 - p.2) ^ 2)).sum / yTrue.length)

/-- Keys of the `model_types` dispatch table of `SurrogateModelManager`. -/
def supportedModelTypes : List String :=
  ["gaussian_process", "random_forest", "neural_network"]

/-- The training metrics every creator returns: held-out R², held-out RMSE,
number of training samples. -/
structure SurrogateMetrics where
  testR2 : ℝ
  testRmse : ℝ
  initialTrainingSamples : ℕ

/-- A created surrogate model: the fitted predictor and its metrics. -/
structure CreatedModel where
  predictor : List ℝ → ℝ
  metrics : SurrogateMetrics

/-- `SurrogateModelManager.create_surrogate_model` composed with any of the
three `_create_*` helpers (all three share the same skeleton): reject an
unsupported model type; split the data 80/20 (`train_test_split` with
`test_size=0.2` draws `ceil(N/5)` held-out samples, raising when the training
part would be empty); fit on the training part; report R² and RMSE of the
fitted predictor on the held-out part.  The external scikit-learn fitting
routine `fitFn` and the shuffled split `splitFn` are explicit parameters; no
minimum-sample-count check appears in the source. -/
noncomputable def createSurrogateModel
    (fitFn : List Sample → (List ℝ → ℝ))
    (splitFn : List Sample → List Sample × List Sample)
    (modelType : String) (inputs : List (List ℝ)) (outputs : List ℝ) :
    Except String CreatedModel :=
  if modelType ∉ supportedModelTypes then
    .error "Unsupported model type"
  else
    let data := inputs.zip outputs
    let nTest := (data.length + 4) / 5
    if data.length - nTest = 0 then .error "train set will be empty"
    else
      let (trainPart, testPart) := splitFn data
      let model := fitFn trainPart
      let yPred := testPart.map (fun p => model p.1)
      .ok ⟨model, ⟨r2Score (testPart.map Prod.snd) yPred,
                   rmseScore (testPart.map Prod.snd) yPred,
                   trainPart.length⟩⟩

/-- Result discriminator for `Except`. -/
def exceptOk {ε α : Type} : Except ε α → Bool
  | .ok _ => true
  | .error _ => false

/-- A concrete 80/20 split (first part train, rest held out), one admissible
instantiation of the external shuffled `train_test_split`. -/
def splitTake (data : List Sample) : List Sample × List Sample :=
  (data.take (data.length - (data.length + 4) / 5),
   data.drop (data.length - (data.length + 4) / 5))

/-- State of a fitted Gaussian-process regressor: its kernel description and
the training data it stores (`X_train_`, `y_train_`). -/
structure GPModel where
  kernel : String := "rbf"
  trainX : List (List ℝ)
  trainY : List ℝ

/-- `SurrogateModelManager._update_gaussian_process`: read the stored training
data, stack the new data under it, and fit a fresh regressor on the combined
set. -/
def updateGaussianProcess (m : GPModel) (xNew : List (List ℝ)) (yNew : List ℝ) :
    GPModel × (ℕ × ℕ) :=
  let xComb := m.trainX ++ xNew
  let yComb := m.trainY ++ yNew
  (⟨m.kernel, xComb, yComb⟩, (xNew.length, xComb.length))

/-- State of a random-forest regressor: hyperparameters and, when it has been
fitted, the data it was fitted on (`none` = unfitted). -/
structure RFModel where
  nEstimators : ℕ := 100
  fittedOn : Option (List (List ℝ) × List ℝ) := none

/-- `SurrogateModelManager._update_random_forest`: construct a fresh
`RandomForestRegressor` with the old hyperparameters and return it without
ever calling `fit` (the source only notes that the original training data
would be required). -/
def updateRandomForest (m : RFModel) (xNew : List (List ℝ)) (_yNew : List ℝ) :
    RFModel × ℕ :=
  (⟨m.nEstimators, none⟩, xNew.length)

/-- State of a neural-network regressor: iteration budget, warm-start flag,
and the data the last `fit` call was given. -/
structure NNModel where
  maxIter : ℕ := 1000
  warmStart : Bool := false
  lastFitX : List (List ℝ) := []
  lastFitY : List ℝ := []

/-- `SurrogateModelManager._update_neural_network`: raise the iteration
budget, set `warm_start`, and fit on the new data only. -/
def updateNeuralNetwork (m : NNModel) (xNew : List (List ℝ)) (yNew : List ℝ)
    (additionalEpochs : ℕ) : NNModel × ℕ :=
  (⟨m.maxIter + additionalEpochs, true, xNew, yNew⟩, additionalEpochs)

/-- A stored model of the manager registry: its type tag and the external
fitted model's prediction functions (mean, and standard deviation for the
Gaussian process). -/
structure StoredModel where
  modelType : String
  predictFn : List (List ℝ) → List ℝ
  predictStd : List (List ℝ) → List ℝ

/-- The process-wide registry `self.models`, keyed by model id. -/
structure Registry where
  models : List (String × StoredModel)

/-- What `SurrogateModelManager.predict` returns: a plain prediction array,
or, for a Gaussian process, the `(predictions, std)` tuple. -/
inductive PredictOut where
  | plain : List ℝ → PredictOut
  | withStd : List ℝ → List ℝ → PredictOut

/-- Lookup in the registry association list. -/
def lookupModel : List (String × StoredModel) → String → Option StoredModel
  | [], _ => none
  | (k, v) :: t, s => if k = s then some v else lookupModel t s

/-- `SurrogateModelManager.predict`: fail when the id is unknown, otherwise
call the stored model's predictor; the registry is only read, never written,
so the returned registry is the input one. -/
def predictModel (r : Registry) (modelId : String) (inputs : List (List ℝ)) :
    Except String (PredictOut × Registry) :=
  match lookupModel r.models modelId with
  | none => .error "Model not found"
  | some m =>
      if m.modelType = "gaussian_process" then
        .ok (.withStd (m.predictFn inputs) (m.predictStd inputs), r)
      else
        .ok (.plain (m.predictFn inputs), r)

/-! ## Helper lemmas -/

lemma isSome_false_eq_none {α : Type} {o : Option α} (h : o.isSome = false) : o = none := by
  cases o with
  | none => rfl
  | some v => simp at h

lemma safeConsts_eq_none {s : String} (h : s ∉ safeConstNames) : safeConsts s = none := by
  simp only [safeConstNames, List.mem_cons, List.not_mem_nil, or_false, not_or] at h
  simp [safeConsts, h.1, h.2]

lemma safeFuns_eq_none {s : String} (h : s ∉ safeFunNames) : safeFuns s = none := by
  simp only [safeFunNames, List.mem_cons, List.not_mem_nil, or_false, not_or] at h
  obtain ⟨h1, h2, h3, h4, h5, h6⟩ := h
  simp [safeFuns, h1, h2, h3, h4, h5, h6]

lemma evalInner_unknown_name (b : Binding) :
    ∀ e : Expr, usesUnknownName b e = true → evalInner e b = none := by
  intro e
  induction e with
  | num q => simp [usesUnknownName]
  | name s =>
      intro h
      simp only [usesUnknownName, Bool.and_eq_true, Bool.not_eq_true',
        decide_eq_false_iff_not] at h
      obtain ⟨h1, h2⟩ := h
      simp [evalInner, isSome_false_eq_none h1, safeConsts_eq_none h2]
  | call f a ih =>
      intro h
      simp only [usesUnknownName, Bool.or_eq_true, Bool.and_eq_true,
        Bool.not_eq_true', decide_eq_false_iff_not] at h
      rcases h with ⟨h1, h2⟩ | h
      · cases hA : evalInner a b <;>
          simp [evalInner, hA, isSome_false_eq_none h1, safeFuns_eq_none h2]
      · simp [evalInner, ih h]
  | neg a ih =>
      intro h
      simp only [usesUnknownName] at h
      simp [evalInner, ih h]
  | add a c ihA ihC =>
      intro h
      simp only [usesUnknownName, Bool.or_eq_true] at h
      rcases h with h | h
      · simp [evalInner, ihA h]
      · cases hA : evalInner a b <;> simp [evalInner, hA, ihC h]
  | sub a c ihA ihC =>
      intro h
      simp only [usesUnknownName, Bool.or_eq_true] at h
      rcases h with h | h
      · simp [evalInner, ihA h]
      · cases hA : evalInner a b <;> simp [evalInner, hA, ihC h]
  | mul a c ihA ihC =>
      intro h
      simp only [usesUnknownName, Bool.or_eq_true] at h
      rcases h with h | h
      · simp [evalInner, ihA h]
      · cases hA : evalInner a b <;> simp [evalInner, hA, ihC h]
  | div a c ihA ihC =>
      intro h
      simp only [usesUnknownName, Bool.or_eq_true] at h
      rcases h with h | h
      · simp [evalInner, ihA h]
      · cases hA : evalInner a b <;> simp [evalInner, hA, ihC h]

/-! ## Claim theorems -/

/-- C1 (counterexample): the specification's allow-list does not contain the
token `pi`, yet the evaluator accepts the expression `pi` with no parameters
bound (it evaluates to π rather than being rejected); conversely the
allow-list contains `abs`, yet evaluating `abs(2)` fails inside `eval` (the
safe environment has no `abs`) and the evaluator returns `0.0` instead of
`2`. -/
theorem expression_allowlist_counterexample :
    ("pi" ∈ specAllowList ↔ False) ∧
    evalInner (Expr.name "pi") [] = some Real.pi ∧
    ("abs" ∈ specAllowList) ∧
    evalInner (Expr.call "abs" (Expr.num 2)) [] = none ∧
    evaluateExpression (Expr.call "abs" (Expr.num 2)) [] = 0 := by
  refine ⟨by simp [specAllowList], rfl, by simp [specAllowList], rfl, rfl⟩

/-- C1 (amended): the evaluator resolves names against the parameter binding
plus the fixed environment sin, cos, tan, exp, log, sqrt, pi, e; an
expression that uses any name outside these is not rejected with an error:
its evaluation fails inside the delegated `eval` and the evaluator returns
`0.0`. -/
theorem expression_unknown_name_evaluates_to_zero (e : Expr) (b : Binding)
    (h : usesUnknownName b e = true) : evaluateExpression e b = 0 := by
  simp [evaluateExpression, evalInner_unknown_name b e h]

/-- C1 (witness): the expression `foo` uses an unknown name and evaluates
to `0.0`. -/
theorem expression_unknown_name_witness :
    usesUnknownName [] (Expr.name "foo") = true ∧
    evaluateExpression (Expr.name "foo") [] = 0 :=
  ⟨by decide, expression_unknown_name_evaluates_to_zero _ _ (by decide)⟩

/-- C5 (amended): when the inner evaluation of an expression raises (malformed
expression or unbound variable), the solver's expression evaluator returns
`0.0` — not +infinity. -/
theorem evaluateExpression_failure_returns_zero (e : Expr) (b : Binding)
    (h : evalInner e b = none) : evaluateExpression e b = 0 := by
  simp [evaluateExpression, h]

/-- C5 (witness): evaluating the unbound variable `x` fails and returns
`0.0`. -/
theorem evaluateExpression_failure_witness :
    evalInner (Expr.name "x") [] = none ∧
    evaluateExpression (Expr.name "x") [] = 0 :=
  ⟨rfl, evaluateExpression_failure_returns_zero _ _ rfl⟩

/-- C5 (counterexample): the expression `x` with nothing bound fails to
evaluate, and the evaluator returns `0.0`, a value smaller than `1` — it does
not return +infinity (a value exceeding every real). -/
theorem evaluateExpression_failure_not_infinity :
    evalInner (Expr.name "x") [] = none ∧
    evaluateExpression (Expr.name "x") [] = 0 ∧
    evaluateExpression (Expr.name "x") [] < 1 := by
  have h : evaluateExpression (Expr.name "x") [] = 0 := rfl
  exact ⟨rfl, h, by rw [h]; norm_num⟩

/-- C2 (code evaluated at the failing input): the objective closure converts
the vector with `_vector_to_parameters(x, {})`, whose result is the empty
binding, so the closure is a constant function of `x`; at `x = [2]` with the
single minimized objective `x` (weight 1) it returns `0`, while the claimed
sum `weight · value(binding) + penalty(binding)` with the binding `x ↦ 2`
equals `2`. -/
theorem objective_closure_ignores_vector :
    (∀ (x y : List ℝ) (objectives : List Objective)
       (constraints : List (String × Constraint)),
       evaluateObjectives x objectives constraints =
         evaluateObjectives y objectives constraints) ∧
    evaluateObjectives [2] [⟨"minimize", ⟨"analytical", Expr.name "x"⟩, 1⟩] [] = 0 ∧
    (1 : ℝ) * evaluateExpression (Expr.name "x") [("x", 2)] +
      evaluateConstraints [] [("x", 2)] = 2 := by
  refine ⟨fun x y objectives constraints => rfl, ?_, ?_⟩
  · show (1 : ℝ) * 0 + 0 + 0 = 0
    norm_num
  · show (1 : ℝ) * 2 + 0 = 2
    norm_num

lemma penalty_term_eq (ct : String) (v bound : ℝ)
    (h : ct = "equality" ∨ ct = "inequality") :
    (if ct = "inequality" ∧ v > bound then (1000000 : ℝ) * (v - bound) ^ 2
     else if ct = "equality" then 1000000 * (v - bound) ^ 2 else 0) =
    1000000 * (if ct = "inequality" then max 0 (v - bound) else |v - bound|) ^ 2 := by
  rcases h with h | h <;> subst h
  · rw [if_neg (by simp), if_pos rfl, if_neg (by simp), sq_abs]
  · by_cases hv : v > bound
    · rw [if_pos ⟨rfl, hv⟩, if_pos rfl, max_eq_right (by linarith)]
    · rw [if_neg (by simp [hv]), if_neg (by simp), if_pos rfl,
        max_eq_left (by linarith)]
      norm_num

/-- C3: under the solver's penalty method, the aggregated penalty over a set
of equality/inequality constraints equals the sum over constraints of the
penalty weight 1e6 (the fixed default; constraints carry no per-constraint
weight in this code) times the square of the violation, where the violation
is `max 0 (value − bound)` for an inequality and `|value − bound|` for an
equality. -/
theorem penalty_is_weighted_squared_violation
    (constraints : List (String × Constraint)) (params : Binding)
    (h : ∀ c ∈ constraints, c.2.ctype = "equality" ∨ c.2.ctype = "inequality") :
    evaluateConstraints constraints params =
      (constraints.map (fun nc =>
        let value := evaluateExpression nc.2.expression params
        let violation :=
          if nc.2.ctype = "inequality" then max 0 (value - nc.2.bound)
          else |value - nc.2.bound|
        1000000 * violation ^ 2)).sum := by
  unfold evaluateConstraints
  congr 1
  apply List.map_congr_left
  intro c hc
  exact penalty_term_eq c.2.ctype (evaluateExpression c.2.expression params)
    c.2.bound (h c hc)

/-- Concrete constraint set for the C3 witness: one inequality `2 ≤ 1`. -/
def penaltyWitnessConstraints : List (String × Constraint) :=
  [("c1", ⟨"inequality", Expr.num 2, 1⟩)]

/-- C3 (witness): the penalty formula instantiated on a concrete violated
inequality constraint. -/
theorem penalty_witness :
    (∀ c ∈ penaltyWitnessConstraints,
       c.2.ctype = "equality" ∨ c.2.ctype = "inequality") ∧
    evaluateConstraints penaltyWitnessConstraints [] =
      (penaltyWitnessConstraints.map (fun nc =>
        let value := evaluateExpression nc.2.expression []
        let violation :=
          if nc.2.ctype = "inequality" then max 0 (value - nc.2.bound)
          else |value - nc.2.bound|
        1000000 * violation ^ 2)).sum :=
  ⟨by decide, penalty_is_weighted_squared_violation penaltyWitnessConstraints []
    (by decide)⟩

/-- C8 (counterexample): the parameter `x` with initial value `5` and bounds
`[0, 1]` passes request validation although `5` lies outside the bounds, and
its value reaches the solver's start vector as `5`, unclamped. -/
theorem out_of_bounds_parameter_accepted :
    validOptimizationParameter ⟨"x", 5, [0, 1], none⟩ = true ∧
    ¬((0 : ℝ) ≤ 5 ∧ (5 : ℝ) ≤ 1) ∧
    parametersToVector [("x", ⟨some 5, some 0, some 1⟩)] = [5] :=
  ⟨rfl, by norm_num, rfl⟩

/-- C8 (amended): request validation checks only the declared field shapes
(a bounds list of exactly two entries); a parameter whose initial value lies
outside its bounds is accepted, and the initial value is passed to the
solver's start vector as given, never clamped. -/
theorem parameter_validation_ignores_initial_value
    (nm : String) (v lo hi : ℝ) (u : Option String) :
    validOptimizationParameter ⟨nm, v, [lo, hi], u⟩ = true ∧
    parametersToVector [(nm, ⟨some v, some lo, some hi⟩)] = [v] :=
  ⟨rfl, rfl⟩

/-- C9: `predict` neither mutates the registry nor depends on hidden state:
a successful prediction leaves the registry unchanged, and repeating the call
with identical inputs returns the identical output. -/
theorem predict_idempotent (r : Registry) (modelId : String)
    (inputs : List (List ℝ)) (out : PredictOut) (r' : Registry)
    (h : predictModel r modelId inputs = .ok (out, r')) :
    r' = r ∧ predictModel r' modelId inputs = .ok (out, r') := by
  cases hL : lookupModel r.models modelId with
  | none => simp [predictModel, hL] at h
  | some m =>
      by_cases hm : m.modelType = "gaussian_process"
      · simp only [predictModel, hL, if_pos hm, Except.ok.injEq,
          Prod.mk.injEq] at h
        obtain ⟨ho, hr⟩ := h
        subst hr
        exact ⟨rfl, by simp only [predictModel, hL, if_pos hm, ho]⟩
      · simp only [predictModel, hL, if_neg hm, Except.ok.injEq,
          Prod.mk.injEq] at h
        obtain ⟨ho, hr⟩ := h
        subst hr
        exact ⟨rfl, by simp only [predictModel, hL, if_neg hm, ho]⟩

/-- Concrete registry for the C9 witness. -/
def predictWitnessRegistry : Registry :=
  ⟨[("m1", ⟨"random_forest", fun _ => [0], fun _ => [0]⟩)]⟩

/-- C9 (witness): predicting twice on a concrete registry returns the
identical output and leaves the registry unchanged. -/
theorem predict_idempotent_witness :
    predictWitnessRegistry = predictWitnessRegistry ∧
    predictModel predictWitnessRegistry "m1" [[1]] =
      .ok (PredictOut.plain [0], predictWitnessRegistry) :=
  predict_idempotent predictWitnessRegistry "m1" [[1]]
    (PredictOut.plain [0]) predictWitnessRegistry rfl

lemma equalWeights_spec (objectives : List MOObjective) (w : List ℚ)
    (h : equalWeights objectives = some w) :
    w.length = objectives.length ∧ w.sum = 1 := by
  unfold equalWeights at h
  by_cases h0 : objectives.length = 0
  · rw [if_pos h0] at h; cases h
  · rw [if_neg h0] at h
    injection h with h
    subst h
    refine ⟨by simp, ?_⟩
    rw [List.sum_replicate, nsmul_eq_mul, mul_one_div]
    exact div_self (Nat.cast_ne_zero.mpr h0)

lemma userDefinedWeights_spec (objectives : List MOObjective) (prefs : Preferences)
    (w : List ℚ) (h : userDefinedWeights objectives prefs = some w) :
    w.length = objectives.length ∧ w.sum = 1 := by
  unfold userDefinedWeights at h
  by_cases hl : prefs.userWeights.length = objectives.length
  · rw [if_pos hl] at h
    by_cases ht : prefs.userWeights.sum = 0
    · rw [if_pos ht] at h; cases h
    · rw [if_neg ht] at h
      injection h with h
      subst h
      refine ⟨by simpa using hl, ?_⟩
      have hs : (prefs.userWeights.map
          (fun x => x / prefs.userWeights.sum)).sum =
          prefs.userWeights.sum / prefs.userWeights.sum := by
        simp only [div_eq_mul_inv, List.sum_map_mul_right, List.map_id']
      rw [hs, div_self ht]
  · rw [if_neg hl] at h
    exact equalWeights_spec objectives w h

lemma determineWeights_spec (objectives : List MOObjective) (prefs : Preferences)
    (w : List ℚ) (h : determineWeights objectives prefs = some w) :
    w.length = objectives.length ∧ w.sum = 1 := by
  simp only [determineWeights] at h
  repeat' split at h
  all_goals
    first
      | exact equalWeights_spec _ _ h
      | exact userDefinedWeights_spec _ _ _ h

/-- C10: on a non-empty objective list the entropy and AHP weight methods
return exactly the equal-weights vector of n copies of 1/n; weight
determination substitutes equal weights for an unrecognized method name; and
every weight vector it returns has length n and sums to 1. -/
theorem weight_determination_defaults
    (objectives : List MOObjective) (prefs : Preferences) (m : String)
    (w : List ℚ) (hne : objectives ≠ []) :
    (entropyBasedWeights objectives prefs = equalWeights objectives ∧
     ahpWeights objectives prefs = equalWeights objectives ∧
     equalWeights objectives =
       some (List.replicate objectives.length (1 / (objectives.length : ℚ)))) ∧
    (m ∉ weightMethodNames →
      determineWeights objectives ⟨some m, prefs.userWeights⟩ =
        equalWeights objectives) ∧
    (determineWeights objectives prefs = some w →
      w.length = objectives.length ∧ w.sum = 1) := by
  refine ⟨⟨rfl, rfl, ?_⟩, ?_, determineWeights_spec objectives prefs w⟩
  · rw [equalWeights, if_neg (by simpa [List.length_eq_zero] using hne)]
  · intro hm
    simp [determineWeights, hm]

/-- Concrete objective list for the C10 witness. -/
def weightWitnessObjectives : List MOObjective := [⟨"f"⟩, ⟨"g"⟩]

/-- C10 (witness): with two objectives and the unrecognized method name
`cheese`, determination falls back to the equal-weights vector of 2 copies of
1/2, of length 2 and sum 1. -/
theorem weight_determination_witness :
    entropyBasedWeights weightWitnessObjectives ⟨some "cheese", []⟩ =
      equalWeights weightWitnessObjectives ∧
    determineWeights weightWitnessObjectives ⟨some "cheese", []⟩ =
      equalWeights weightWitnessObjectives ∧
    (List.replicate weightWitnessObjectives.length
        (1 / (weightWitnessObjectives.length : ℚ))).length =
      weightWitnessObjectives.length ∧
    (List.replicate weightWitnessObjectives.length
        (1 / (weightWitnessObjectives.length : ℚ))).sum = 1 := by
  have h := weight_determination_defaults weightWitnessObjectives
    ⟨some "cheese", []⟩ "cheese"
    (List.replicate weightWitnessObjectives.length
      (1 / (weightWitnessObjectives.length : ℚ)))
    (by simp [weightWitnessObjectives])
  have hm : "cheese" ∉ weightMethodNames := by simp [weightMethodNames]
  exact ⟨h.1.1, h.2.1 hm, (h.2.2 rfl).1, (h.2.2 rfl).2⟩

/-- Constant external fitting routine used to instantiate the C6
statements. -/
def constFit (_ : List Sample) : List ℝ → ℝ := fun _ => 0

/-- C6 (counterexample): training a Gaussian-process surrogate on N = 4
samples succeeds — no `InsufficientDataError` (which exists nowhere in the
code) is raised for N < 5. -/
theorem small_sample_training_succeeds :
    ([[0], [1], [2], [3]] : List (List ℝ)).length = 4 ∧
    exceptOk (createSurrogateModel constFit splitTake "gaussian_process"
      [[0], [1], [2], [3]] [0, 1, 2, 3]) = true :=
  ⟨rfl, rfl⟩

/-- C6 (amended): surrogate training performs no minimum-sample-count check:
for every supported model kind and every sample set whose 80/20 split leaves
a non-empty training part (N ≥ 2), it fits on the split's training part and
reports the R² and RMSE of the fitted predictor on the held-out part. -/
theorem surrogate_training_heldout_metrics
    (fitFn : List Sample → (List ℝ → ℝ))
    (splitFn : List Sample → List Sample × List Sample)
    (modelType : String) (inputs : List (List ℝ)) (outputs : List ℝ)
    (trainPart testPart : List Sample)
    (hmt : modelType ∈ supportedModelTypes)
    (hn : 2 ≤ (inputs.zip outputs).length)
    (hsplit : splitFn (inputs.zip outputs) = (trainPart, testPart)) :
    createSurrogateModel fitFn splitFn modelType inputs outputs =
      .ok ⟨fitFn trainPart,
           ⟨r2Score (testPart.map Prod.snd)
              (testPart.map (fun p => fitFn trainPart p.1)),
            rmseScore (testPart.map Prod.snd)
              (testPart.map (fun p => fitFn trainPart p.1)),
            trainPart.length⟩⟩ := by
  have hnz : ¬((inputs.zip outputs).length -
      ((inputs.zip outputs).length + 4) / 5 = 0) := by omega
  simp only [createSurrogateModel, if_neg (not_not_intro hmt), if_neg hnz,
    hsplit]

/-- Training part of the concrete 80/20 split for the C6 witness. -/
def witnessTrainPart : List Sample := [([0], 0), ([1], 1), ([2], 2)]

/-- Held-out part of the concrete 80/20 split for the C6 witness. -/
def witnessTestPart : List Sample := [([3], 3)]

/-- C6 (witness): on 4 concrete samples the creation succeeds, trains on the
3-sample part and reports metrics from the 1-sample held-out part. -/
theorem surrogate_training_witness :
    ("gaussian_process" ∈ supportedModelTypes) ∧
    2 ≤ (([[0], [1], [2], [3]] : List (List ℝ)).zip ([0, 1, 2, 3] : List ℝ)).length ∧
    createSurrogateModel constFit splitTake "gaussian_process"
      [[0], [1], [2], [3]] [0, 1, 2, 3] =
      .ok ⟨constFit witnessTrainPart,
           ⟨r2Score (witnessTestPart.map Prod.snd)
              (witnessTestPart.map (fun p => constFit witnessTrainPart p.1)),
            rmseScore (witnessTestPart.map Prod.snd)
              (witnessTestPart.map (fun p => constFit witnessTrainPart p.1)),
            witnessTrainPart.length⟩⟩ :=
  ⟨by decide, by decide,
   surrogate_training_heldout_metrics constFit splitTake "gaussian_process"
     [[0], [1], [2], [3]] [0, 1, 2, 3] witnessTrainPart witnessTestPart
     (by decide) (by decide) rfl⟩

/-- C7 (code evaluated at the failing input): the Gaussian-process update
refits on stored ∪ new and the network update warm-starts on the new data
only, as claimed, but the random-forest update returns a freshly constructed
regressor that is never fitted: updating a forest fitted on ([[0]], [0]) with
([[1]], [1]) yields an unfitted model instead of one trained on the union. -/
theorem surrogate_update_training_data :
    (∀ (m : GPModel) (x : List (List ℝ)) (y : List ℝ),
       (updateGaussianProcess m x y).1.trainX = m.trainX ++ x ∧
       (updateGaussianProcess m x y).1.trainY = m.trainY ++ y) ∧
    (∀ (m : NNModel) (x : List (List ℝ)) (y : List ℝ) (epochs : ℕ),
       (updateNeuralNetwork m x y epochs).1.lastFitX = x ∧
       (updateNeuralNetwork m x y epochs).1.lastFitY = y ∧
       (updateNeuralNetwork m x y epochs).1.warmStart = true) ∧
    (updateRandomForest ⟨100, some ([[0]], [0])⟩ [[1]] [1]).1.fittedOn = none ∧
    (updateRandomForest ⟨100, some ([[0]], [0])⟩ [[1]] [1]).1.fittedOn ≠
      some ([[0], [1]], [0, 1]) :=
  ⟨fun m x y => ⟨rfl, rfl⟩, fun m x y e => ⟨rfl, rfl, rfl⟩, rfl,
   by simp [updateRandomForest]⟩

lemma dominates_self (v : List ℚ) : dominates v v = false := by
  simp [dominates]

lemma filter_enumFrom_map_snd {α : Type _} (P : ℕ → α → Bool) (Q : α → Bool) :
    ∀ (l : List α) (n : ℕ),
      (∀ i v, l.get? i = some v → P (n + i) v = Q v) →
      ((l.enumFrom n).filter (fun p => P p.1 p.2)).map Prod.snd = l.filter Q := by
  intro l
  induction l with
  | nil => intro n _; rfl
  | cons a t ih =>
      intro n h
      have h0 : P n a = Q a := by simpa using h 0 a rfl
      have ht : ∀ i v, t.get? i = some v → P (n + 1 + i) v = Q v := by
        intro i v hv
        have h' := h (i + 1) v hv
        have e : n + (i + 1) = n + 1 + i := by omega
        rwa [e] at h'
      show (((n, a) :: t.enumFrom (n + 1)).filter (fun p => P p.1 p.2)).map Prod.snd
          = (a :: t).filter Q
      rw [List.filter_cons, List.filter_cons]
      cases hq : Q a with
      | true => simp [h0, hq, ih (n + 1) ht]
      | false => simp [h0, hq, ih (n + 1) ht]

lemma filter_enum_map_snd {α : Type _} (P : ℕ → α → Bool) (Q : α → Bool)
    (l : List α) (h : ∀ i v, l.get? i = some v → P i v = Q v) :
    (l.enum.filter (fun p => P p.1 p.2)).map Prod.snd = l.filter Q := by
  have := filter_enumFrom_map_snd P Q l 0 (by simpa using h)
  simpa [List.enum] using this

lemma any_enum_ne_eq_any (pairs : List (List ℚ × List ℚ)) (i : ℕ)
    (p : List ℚ × List ℚ) (hp : pairs.get? i = some p) :
    (pairs.enum.any (fun jq => decide (jq.1 ≠ i) && dominates jq.2.2 p.2)) =
      pairs.any (fun q => dominates q.2 p.2) := by
  rw [Bool.eq_iff_iff]
  simp only [List.any_eq_true]
  constructor
  · rintro ⟨jq, hmem, hcond⟩
    rw [Bool.and_eq_true] at hcond
    refine ⟨jq.2, ?_, hcond.2⟩
    have hm : jq.2 ∈ pairs.enum.map Prod.snd := List.mem_map_of_mem Prod.snd hmem
    rwa [List.enum_map_snd] at hm
  · rintro ⟨q, hq, hdom⟩
    obtain ⟨j, hj⟩ := List.mem_iff_get?.mp hq
    refine ⟨(j, q), List.mem_enum_iff_get?.mpr hj, ?_⟩
    rw [Bool.and_eq_true]
    refine ⟨decide_eq_true ?_, hdom⟩
    intro hji
    subst hji
    rw [hp] at hj
    injection hj with hj
    subst hj
    rw [dominates_self] at hdom
    cases hdom

/-- C4: the non-dominated filter returns exactly the objective vectors that no
other vector of the list dominates (no-worse in every component, strictly
better in at least one), preserving order and multiplicity. -/
theorem pareto_filter_exact (solutions objectives : List (List ℚ))
    (h : solutions.length = objectives.length) :
    (filterNonDominated solutions objectives).2 =
      objectives.filter (fun v => !(objectives.any (fun w => dominates w v))) := by
  unfold filterNonDominated
  cases hs : solutions.isEmpty with
  | true =>
      have hobj : objectives = [] := by
        rw [List.isEmpty_iff] at hs
        subst hs
        exact List.length_eq_zero.mp (by simpa using h.symm)
      subst hobj
      simp
  | false =>
      simp only [Bool.false_eq_true, if_false]
      set pairs := solutions.zip objectives with hpairs
      have hlen : objectives.length ≤ solutions.length := le_of_eq h.symm
      have hsnd : pairs.map Prod.snd = objectives := List.map_snd_zip _ _ hlen
      have hPQ : ∀ (i : ℕ) (q : List ℚ × List ℚ), pairs.get? i = some q →
          (fun (i : ℕ) (q : List ℚ × List ℚ) =>
            !(pairs.enum.any (fun jq => decide (jq.1 ≠ i) && dominates jq.2.2 q.2)))
            i q =
          (fun (q : List ℚ × List ℚ) =>
            !(pairs.any (fun q2 => dominates q2.2 q.2))) q := by
        intro i q hq
        simp only []
        rw [any_enum_ne_eq_any pairs i q hq]
      have key := filter_enum_map_snd
        (fun (i : ℕ) (q : List ℚ × List ℚ) =>
          !(pairs.enum.any (fun jq => decide (jq.1 ≠ i) && dominates jq.2.2 q.2)))
        (fun (q : List ℚ × List ℚ) => !(pairs.any (fun q2 => dominates q2.2 q.2)))
        pairs hPQ
      have hany : ∀ v : List ℚ,
          objectives.any (fun w => dominates w v) =
            pairs.any (fun q => dominates q.2 v) := by
        intro v
        rw [Bool.eq_iff_iff]
        simp only [List.any_eq_true]
        constructor
        · rintro ⟨w, hw, hd⟩
          rw [← hsnd] at hw
          obtain ⟨q, hq, rfl⟩ := List.mem_map.mp hw
          exact ⟨q, hq, hd⟩
        · rintro ⟨q, hq, hd⟩
          exact ⟨q.2, by rw [← hsnd]; exact List.mem_map_of_mem Prod.snd hq, hd⟩
      have hfm := List.filter_map
        (p := fun v => !(pairs.any (fun q => dominates q.2 v))) Prod.snd pairs
      rw [hsnd] at hfm
      have hQ : (fun v => !(objectives.any (fun w => dominates w v))) =
          (fun v => !(pairs.any (fun q => dominates q.2 v))) := by
        funext v
        rw [hany v]
      rw [hQ, hfm]
      show ((pairs.enum.filter (fun ip =>
        !(pairs.enum.any (fun jq =>
            decide (jq.1 ≠ ip.1) && dominates jq.2.2 ip.2.2)))).map
          (fun ip => ip.2.2)) = _
      calc ((pairs.enum.filter (fun ip =>
              !(pairs.enum.any (fun jq =>
                  decide (jq.1 ≠ ip.1) && dominates jq.2.2 ip.2.2)))).map
            (fun ip => ip.2.2))
          = (((pairs.enum.filter (fun ip =>
              !(pairs.enum.any (fun jq =>
                  decide (jq.1 ≠ ip.1) && dominates jq.2.2 ip.2.2)))).map
            Prod.snd).map Prod.snd) := by rw [List.map_map]; rfl
        _ = ((pairs.filter (fun q : List ℚ × List ℚ =>
              !(pairs.any (fun q2 => dominates q2.2 q.2)))).map Prod.snd) := by
              rw [key]
        _ = _ := rfl

/-- The specification's worked Pareto example input. -/
def paretoExample : List (List ℚ) := [[1, 4], [2, 3], [3, 2], [4, 1], [2, 2]]

/-- Evaluation of the filter on the specification's worked example: the
non-dominated front is exactly (1,4), (4,1), (2,2). -/
theorem pareto_example_front :
    (filterNonDominated paretoExample paretoExample).2 =
      [[1, 4], [4, 1], [2, 2]] := by decide

/-- C4 (witness): the characterization instantiated on the specification's
worked example. -/
theorem pareto_filter_exact_witness :
    paretoExample.length = paretoExample.length ∧
    (filterNonDominated paretoExample paretoExample).2 =
      paretoExample.filter
        (fun v => !(paretoExample.any (fun w => dominates w v))) :=
  ⟨rfl, pareto_filter_exact paretoExample paretoExample rfl⟩

end NeuroOpt
